import Mathlib

/-!
Shallow embedding of `src/supply_chain_optimization.py`: a script that
aggregates historical shipment weights by (warehouse block, shipping mode),
builds a linear program with pulp minimizing shipping cost subject to a
mass-balance equality, per-mode 20%/50% band constraints, and per-warehouse
110% capacity constraints, solves it, and extracts one allocation row per
decision variable.

Real-valued weights and costs are modelled as exact rationals (the decimal
literals 0.2, 0.5, 1.1 of the script are taken at their decimal value).
Python dict lookups `cost_per_kg[mode]` are fallible: a missing key raises
KeyError, modelled with `Except PyErr`.  The external LP solver is an
arbitrary function from an LP instance to a status and a variable
assignment, since the script treats it as a black box.
-/

namespace SupplyChain

/-- One row of `train.csv` as the script uses it: warehouse block label,
mode of shipment, and weight in grams. -/
structure ShipmentRecord where
  warehouse : String
  mode : String
  weight_in_gms : ℚ
deriving DecidableEq

/-- Line 10: `data['Weight_in_kg'] = data['Weight_in_gms'] / 1000`. -/
def weight_in_kg (r : ShipmentRecord) : ℚ := r.weight_in_gms / 1000

/-- Lines 13-17: the cost-per-kg table, keyed by mode of shipment. -/
def cost_per_kg : List (String × ℚ) := [("Flight", 20), ("Ship", 10), ("Road", 5)]

/-- Key set of the cost table, in dict order. -/
def tableModes : List String := cost_per_kg.map Prod.fst

/-- Python dict lookup `cost_per_kg[m]`: the value at the first matching key,
`none` standing for the raised `KeyError`. -/
def dictLookup (m : String) : List (String × ℚ) → Option ℚ
  | [] => none
  | (k, c) :: rest => if k = m then some c else dictLookup m rest

/-- Fold step of the groupby-sum of line 20: add one record's kg weight into
the running association list keyed by (warehouse, mode), creating the key at
the end on first sight. -/
def addRecord (acc : List ((String × String) × ℚ)) (r : ShipmentRecord) :
    List ((String × String) × ℚ) :=
  match acc with
  | [] => [((r.warehouse, r.mode), weight_in_kg r)]
  | (k, w) :: rest =>
    if k = (r.warehouse, r.mode) then (k, w + weight_in_kg r) :: rest
    else (k, w) :: addRecord rest r

/-- Line 20: `data.groupby(['Warehouse_block', 'Mode_of_Shipment'])['Weight_in_kg'].sum()`. -/
def grouped_data (rs : List ShipmentRecord) : List ((String × String) × ℚ) :=
  rs.foldl addRecord []

/-- Line 21: `total_actual_weight = data['Weight_in_kg'].sum()`. -/
def total_actual_weight (rs : List ShipmentRecord) : ℚ :=
  (rs.map weight_in_kg).sum

/-- Sense of a pulp constraint: `<=`, `>=` or `==`. -/
inductive Rel where
  | le
  | ge
  | eq
deriving DecidableEq

/-- One linear constraint: variable keys with coefficients, a sense, and a
right-hand side. -/
structure LinConstraint where
  terms : List ((String × String) × ℚ)
  rel : Rel
  rhs : ℚ
deriving DecidableEq

/-- Assignment of a numeric value to every decision-variable key (the
solver's `varValue`s). -/
abbrev Assignment := (String × String) → ℚ

/-- Value of a constraint's left-hand side under an assignment. -/
def lhsVal (c : LinConstraint) (a : Assignment) : ℚ :=
  (c.terms.map (fun t => t.2 * a t.1)).sum

/-- Satisfaction of one constraint. -/
def LinConstraint.holds (c : LinConstraint) (a : Assignment) : Prop :=
  match c.rel with
  | .le => lhsVal c a ≤ c.rhs
  | .ge => c.rhs ≤ lhsVal c a
  | .eq => lhsVal c a = c.rhs

instance (c : LinConstraint) (a : Assignment) : Decidable (c.holds a) :=
  match c with
  | ⟨ts, .le, r⟩ => inferInstanceAs (Decidable (lhsVal ⟨ts, .le, r⟩ a ≤ r))
  | ⟨ts, .ge, r⟩ => inferInstanceAs (Decidable (r ≤ lhsVal ⟨ts, .ge, r⟩ a))
  | ⟨ts, .eq, r⟩ => inferInstanceAs (Decidable (lhsVal ⟨ts, .eq, r⟩ a = r))

/-- The complete pulp problem of line 24: a minimized linear objective and
the constraint list, in the order the script adds them. -/
structure LPInstance where
  objective : List ((String × String) × ℚ)
  constraints : List LinConstraint
deriving DecidableEq

/-- The only exception the modelled fragment of the script can raise: a
Python `KeyError` from an unguarded dict lookup `cost_per_kg[mode]`. -/
inductive PyErr where
  | keyError : String → PyErr
deriving DecidableEq

/-- Decision-variable keys of lines 27-31: one per grouped (warehouse, mode)
row, in row order. -/
def varKeys (cells : List ((String × String) × ℚ)) : List (String × String) :=
  cells.map Prod.fst

/-- Lines 33-37: the objective terms, `var * cost_per_kg[mode]` per grouped
row; the unguarded lookup raises `KeyError` on a mode missing from the
table. -/
def buildObjective (cells : List ((String × String) × ℚ)) :
    Except PyErr (List ((String × String) × ℚ)) :=
  match cells with
  | [] => .ok []
  | (k, _) :: rest =>
    match dictLookup k.2 cost_per_kg with
    | none => .error (.keyError k.2)
    | some c => (buildObjective rest).map (fun ts => (k, c) :: ts)

/-- Line 42: sum of all decision variables equals the grand total, as an
equality. -/
def massBalance (cells : List ((String × String) × ℚ)) (T : ℚ) : LinConstraint :=
  ⟨(varKeys cells).map (fun k => (k, (1 : ℚ))), .eq, T⟩

/-- Lines 45-49: minimum 20% allocation to mode `m`. -/
def minModeConstraint (cells : List ((String × String) × ℚ)) (T : ℚ) (m : String) :
    LinConstraint :=
  ⟨((varKeys cells).filter (fun k => k.2 == m)).map (fun k => (k, (1 : ℚ))), .ge, 0.2 * T⟩

/-- Lines 52-56: maximum 50% allocation to mode `m`. -/
def maxModeConstraint (cells : List ((String × String) × ℚ)) (T : ℚ) (m : String) :
    LinConstraint :=
  ⟨((varKeys cells).filter (fun k => k.2 == m)).map (fun k => (k, (1 : ℚ))), .le, 0.5 * T⟩

/-- First-occurrence deduplication, the order `pandas.unique` keeps on line
59; `seen` carries the labels already emitted. -/
def uniqueFirst (seen : List String) : List String → List String
  | [] => []
  | x :: xs => if x ∈ seen then uniqueFirst seen xs else x :: uniqueFirst (x :: seen) xs

/-- Line 59: `grouped_data['Warehouse_block'].unique()`. -/
def uniqueWarehouses (cells : List ((String × String) × ℚ)) : List String :=
  uniqueFirst [] (cells.map (fun c => c.1.1))

/-- Line 63: historical kg total of warehouse `w`, read back off the grouped
rows. -/
def warehouseHistWeight (cells : List ((String × String) × ℚ)) (w : String) : ℚ :=
  ((cells.filter (fun c => c.1.1 == w)).map Prod.snd).sum

/-- Lines 58-63: capacity of warehouse `w`, 110% of its historical total. -/
def warehouseConstraint (cells : List ((String × String) × ℚ)) (w : String) :
    LinConstraint :=
  ⟨((varKeys cells).filter (fun k => k.1 == w)).map (fun k => (k, (1 : ℚ))), .le,
    1.1 * warehouseHistWeight cells w⟩

/-- Constraint list of lines 39-63, in the order the script adds them to the
problem. -/
def problemConstraints (rs : List ShipmentRecord) : List LinConstraint :=
  massBalance (grouped_data rs) (total_actual_weight rs) ::
    ((cost_per_kg.map (fun mc => minModeConstraint (grouped_data rs) (total_actual_weight rs) mc.1)) ++
      (cost_per_kg.map (fun mc => maxModeConstraint (grouped_data rs) (total_actual_weight rs) mc.1)) ++
      ((uniqueWarehouses (grouped_data rs)).map (fun w => warehouseConstraint (grouped_data rs) w)))

/-- Lines 20-63: the whole model construction, from raw records to the LP
instance; fails with the `KeyError` of the objective's cost lookups, the
first exception the script can hit. -/
def buildProblem (rs : List ShipmentRecord) : Except PyErr LPInstance :=
  (buildObjective (grouped_data rs)).map
    (fun obj => { objective := obj, constraints := problemConstraints rs })

/-- Satisfaction of every constraint of an instance. -/
def satisfies (p : LPInstance) (a : Assignment) : Prop :=
  ∀ c ∈ p.constraints, c.holds a

instance (p : LPInstance) (a : Assignment) : Decidable (satisfies p a) :=
  inferInstanceAs (Decidable (∀ c ∈ p.constraints, c.holds a))

/-- Outcome tag of `problem.solve()` (pulp's LpStatus values). -/
inductive SolveStatus where
  | optimal
  | notSolved
  | infeasible
  | unbounded
  | undefined
deriving DecidableEq

/-- The external LP solver: any function producing a status and the variable
values it leaves on the problem. -/
abbrev Solver := LPInstance → SolveStatus × Assignment

/-- One row of `results_df`, lines 69-77. -/
structure AllocationRow where
  warehouse : String
  mode : String
  weight : ℚ
  cost : ℚ
deriving DecidableEq

/-- Lines 69-77: one result row per decision variable, in dict order, with
`Cost = var.varValue * cost_per_kg[key[1]]`; the lookup is again unguarded. -/
def extractResults (cells : List ((String × String) × ℚ)) (a : Assignment) :
    Except PyErr (List AllocationRow) :=
  match cells with
  | [] => .ok []
  | (k, _) :: rest =>
    match dictLookup k.2 cost_per_kg with
    | none => .error (.keyError k.2)
    | some c =>
      (extractResults rest a).map (fun rows => ⟨k.1, k.2, a k, a k * c⟩ :: rows)

/-- Line 147: `pulp.value(problem.objective)`, the objective evaluated at
the solver's variable values. -/
def objectiveValue (p : LPInstance) (a : Assignment) : ℚ :=
  (p.objective.map (fun t => t.2 * a t.1)).sum

/-- The script's run on a record list: build the model (lines 20-63), call
`problem.solve()` (line 66), then unconditionally collect the result rows
(lines 69-77).  No branch inspects the solver status. -/
def pipeline (solver : Solver) (rs : List ShipmentRecord) :
    Except PyErr (SolveStatus × List AllocationRow) :=
  match buildProblem rs with
  | .error e => .error e
  | .ok p =>
    match extractResults (grouped_data rs) ((solver p).2) with
    | .error e => .error e
    | .ok rows => .ok ((solver p).1, rows)

/-- Scenario A of the spec: one warehouse "A", one mode "Road", 100 kg
(100000 g before the script's unit conversion). -/
def scenarioA : List ShipmentRecord := [⟨"A", "Road", 100000⟩]

/-- Scenario B of the spec: one warehouse "A", 40/30/30 kg across
Flight/Ship/Road. -/
def scenarioB : List ShipmentRecord :=
  [⟨"A", "Flight", 40000⟩, ⟨"A", "Ship", 30000⟩, ⟨"A", "Road", 30000⟩]

/-- The LP instance the script builds for scenario A. -/
def pA : LPInstance := ((buildProblem scenarioA).toOption).getD ⟨[], []⟩

/-- The LP instance the script builds for scenario B. -/
def pB : LPInstance := ((buildProblem scenarioB).toOption).getD ⟨[], []⟩

/-- The historical split of scenario B as a variable assignment. -/
def aB : Assignment := fun k =>
  if k = ("A", "Flight") then 40 else if k = ("A", "Ship") then 30
  else if k = ("A", "Road") then 30 else 0

/-- A solver stub that reports infeasibility and zeroes every variable,
as CBC may on an infeasible instance. -/
def constInfSolver : Solver := fun _ => (.infeasible, fun _ => 0)


/-- Total allocated weight under an assignment: the sum of all decision
variables. -/
def totalAlloc (cells : List ((String × String) × ℚ)) (a : Assignment) : ℚ :=
  ((varKeys cells).map a).sum

/-- Weight allocated to mode `m` under an assignment. -/
def modeAlloc (cells : List ((String × String) × ℚ)) (m : String) (a : Assignment) : ℚ :=
  (((varKeys cells).filter (fun k => k.2 == m)).map a).sum

/-- Weight allocated to warehouse `w` under an assignment. -/
def whAlloc (cells : List ((String × String) × ℚ)) (w : String) (a : Assignment) : ℚ :=
  (((varKeys cells).filter (fun k => k.1 == w)).map a).sum

lemma addRecord_sum (acc : List ((String × String) × ℚ)) (r : ShipmentRecord) :
    ((addRecord acc r).map Prod.snd).sum = (acc.map Prod.snd).sum + weight_in_kg r := by
  induction acc with
  | nil => simp [addRecord]
  | cons hd tl ih =>
    obtain ⟨k, w⟩ := hd
    simp only [addRecord]
    by_cases h : k = (r.warehouse, r.mode)
    · simp [h]; ring
    · simp [h, ih]; ring

lemma foldl_addRecord_sum (rs : List ShipmentRecord) :
    ∀ acc : List ((String × String) × ℚ),
      (((rs.foldl addRecord acc).map Prod.snd).sum : ℚ) =
        (acc.map Prod.snd).sum + (rs.map weight_in_kg).sum := by
  induction rs with
  | nil => intro acc; simp
  | cons r rs ih =>
    intro acc
    simp only [List.foldl_cons, List.map_cons, List.sum_cons, ih (addRecord acc r),
      addRecord_sum]
    ring

lemma mem_keys_addRecord (acc : List ((String × String) × ℚ)) (r : ShipmentRecord)
    (k : String × String) :
    k ∈ (addRecord acc r).map Prod.fst ↔
      k ∈ acc.map Prod.fst ∨ k = (r.warehouse, r.mode) := by
  induction acc with
  | nil => simp [addRecord]
  | cons hd tl ih =>
    obtain ⟨k0, w⟩ := hd
    simp only [addRecord]
    by_cases h : k0 = (r.warehouse, r.mode)
    · subst h
      rw [if_pos rfl]
      simp only [List.map_cons, List.mem_cons]
      tauto
    · rw [if_neg h]
      simp only [List.map_cons, List.mem_cons, ih]
      tauto

lemma mem_keys_foldl (rs : List ShipmentRecord) :
    ∀ (acc : List ((String × String) × ℚ)) (k : String × String),
      k ∈ (rs.foldl addRecord acc).map Prod.fst ↔
        k ∈ acc.map Prod.fst ∨ ∃ r ∈ rs, k = (r.warehouse, r.mode) := by
  induction rs with
  | nil => intro acc k; simp
  | cons r rs ih =>
    intro acc k
    simp only [List.foldl_cons, ih (addRecord acc r), mem_keys_addRecord,
      List.mem_cons]
    constructor
    · rintro (⟨h | h⟩ | ⟨r2, hr2, h⟩)
      · exact .inl h
      · exact .inr ⟨r, .inl rfl, h⟩
      · exact .inr ⟨r2, .inr hr2, h⟩
    · rintro (h | ⟨r2, hr2 | hr2, h⟩)
      · exact .inl (.inl h)
      · subst hr2; exact .inl (.inr h)
      · exact .inr ⟨r2, hr2, h⟩

lemma mem_keys_grouped (rs : List ShipmentRecord) (k : String × String) :
    k ∈ varKeys (grouped_data rs) ↔ ∃ r ∈ rs, k = (r.warehouse, r.mode) := by
  rw [varKeys, grouped_data, mem_keys_foldl rs [] k]
  simp

lemma mem_uniqueFirst (l : List String) :
    ∀ (seen : List String) (x : String),
      x ∈ uniqueFirst seen l ↔ x ∈ l ∧ x ∉ seen := by
  induction l with
  | nil => intro seen x; simp [uniqueFirst]
  | cons y ys ih =>
    intro seen x
    simp only [uniqueFirst]
    by_cases hy : y ∈ seen
    · rw [if_pos hy, ih seen x]
      simp only [List.mem_cons]
      constructor
      · rintro ⟨h1, h2⟩; exact ⟨.inr h1, h2⟩
      · rintro ⟨h1 | h1, h2⟩
        · exact absurd (h1 ▸ hy) h2
        · exact ⟨h1, h2⟩
    · rw [if_neg hy]
      simp only [List.mem_cons, ih (y :: seen) x, List.mem_cons]
      constructor
      · rintro (h | ⟨h1, h2⟩)
        · exact ⟨.inl h, h ▸ hy⟩
        · exact ⟨.inr h1, fun hs => h2 (.inr hs)⟩
      · rintro ⟨h1 | h1, h2⟩
        · exact .inl h1
        · by_cases hxy : x = y
          · exact .inl hxy
          · exact .inr ⟨h1, fun hs => (by rcases hs with h | h; exact hxy h; exact h2 h)⟩

lemma mem_uniqueWarehouses (cells : List ((String × String) × ℚ)) (w : String) :
    w ∈ uniqueWarehouses cells ↔ w ∈ cells.map (fun c => c.1.1) := by
  simp [uniqueWarehouses, mem_uniqueFirst]

lemma buildProblem_ok {rs : List ShipmentRecord} {p : LPInstance}
    (h : buildProblem rs = .ok p) :
    p.constraints = problemConstraints rs ∧
      buildObjective (grouped_data rs) = .ok p.objective := by
  unfold buildProblem at h
  cases hobj : buildObjective (grouped_data rs) with
  | error e => rw [hobj] at h; simp [Except.map] at h
  | ok obj =>
    rw [hobj] at h
    simp only [Except.map] at h
    cases h
    exact ⟨rfl, rfl⟩

lemma sum_unit_terms (ks : List (String × String)) (a : Assignment) :
    ((ks.map (fun k => (k, (1 : ℚ)))).map (fun t => t.2 * a t.1)).sum = (ks.map a).sum := by
  induction ks with
  | nil => simp
  | cons k ks ih => simp only [List.map_cons, List.sum_cons, ih, one_mul]

lemma lhsVal_massBalance (cells : List ((String × String) × ℚ)) (T : ℚ) (a : Assignment) :
    lhsVal (massBalance cells T) a = totalAlloc cells a :=
  sum_unit_terms (varKeys cells) a

lemma lhsVal_minMode (cells : List ((String × String) × ℚ)) (T : ℚ) (m : String)
    (a : Assignment) : lhsVal (minModeConstraint cells T m) a = modeAlloc cells m a :=
  sum_unit_terms ((varKeys cells).filter (fun k => k.2 == m)) a

lemma lhsVal_maxMode (cells : List ((String × String) × ℚ)) (T : ℚ) (m : String)
    (a : Assignment) : lhsVal (maxModeConstraint cells T m) a = modeAlloc cells m a :=
  sum_unit_terms ((varKeys cells).filter (fun k => k.2 == m)) a

lemma lhsVal_warehouse (cells : List ((String × String) × ℚ)) (w : String)
    (a : Assignment) : lhsVal (warehouseConstraint cells w) a = whAlloc cells w a :=
  sum_unit_terms ((varKeys cells).filter (fun k => k.1 == w)) a

lemma dictLookup_eq_none (m : String) (t : List (String × ℚ)) :
    dictLookup m t = none ↔ m ∉ t.map Prod.fst := by
  induction t with
  | nil => simp [dictLookup]
  | cons hd tl ih =>
    obtain ⟨k, c⟩ := hd
    simp only [dictLookup, List.map_cons, List.mem_cons]
    by_cases h : k = m
    · subst h; simp
    · have h2 : m ≠ k := fun e => h e.symm
      rw [if_neg h, ih]
      simp [h2]

lemma buildObjective_ok_of (cells : List ((String × String) × ℚ))
    (h : ∀ c ∈ cells, dictLookup c.1.2 cost_per_kg ≠ none) :
    ∃ obj, buildObjective cells = .ok obj := by
  induction cells with
  | nil => exact ⟨[], rfl⟩
  | cons hd tl ih =>
    obtain ⟨k, w⟩ := hd
    cases hk : dictLookup k.2 cost_per_kg with
    | none => exact absurd hk (h (k, w) (List.mem_cons_self _ _))
    | some c =>
      obtain ⟨obj, hobj⟩ := ih (fun c2 hc => h c2 (List.mem_cons_of_mem _ hc))
      exact ⟨(k, c) :: obj, by simp [buildObjective, hk, hobj, Except.map]⟩

lemma extractResults_ok_of (cells : List ((String × String) × ℚ)) (a : Assignment)
    (h : ∀ c ∈ cells, dictLookup c.1.2 cost_per_kg ≠ none) :
    ∃ rows, extractResults cells a = .ok rows := by
  induction cells with
  | nil => exact ⟨[], rfl⟩
  | cons hd tl ih =>
    obtain ⟨k, w⟩ := hd
    cases hk : dictLookup k.2 cost_per_kg with
    | none => exact absurd hk (h (k, w) (List.mem_cons_self _ _))
    | some c =>
      obtain ⟨rows, hrows⟩ := ih (fun c2 hc => h c2 (List.mem_cons_of_mem _ hc))
      exact ⟨⟨k.1, k.2, a k, a k * c⟩ :: rows, by simp [extractResults, hk, hrows, Except.map]⟩

lemma buildObjective_error_of (cells : List ((String × String) × ℚ))
    (h : ∃ c ∈ cells, dictLookup c.1.2 cost_per_kg = none) :
    ∃ m, dictLookup m cost_per_kg = none ∧ buildObjective cells = .error (.keyError m) := by
  induction cells with
  | nil => simp at h
  | cons hd tl ih =>
    obtain ⟨k, w⟩ := hd
    cases hk : dictLookup k.2 cost_per_kg with
    | none => exact ⟨k.2, hk, by simp [buildObjective, hk]⟩
    | some c =>
      obtain ⟨c0, hc0, hnone⟩ := h
      rcases List.mem_cons.mp hc0 with rfl | hmem
      · simp only at hnone
        rw [hk] at hnone
        cases hnone
      · obtain ⟨m, hm, herr⟩ := ih ⟨c0, hmem, hnone⟩
        exact ⟨m, hm, by simp [buildObjective, hk, herr, Except.map]⟩

lemma extractResults_length (cells : List ((String × String) × ℚ)) (a : Assignment) :
    ∀ rows, extractResults cells a = .ok rows → rows.length = cells.length := by
  induction cells with
  | nil =>
    intro rows h
    simp only [extractResults, Except.ok.injEq] at h
    subst h; rfl
  | cons hd tl ih =>
    intro rows h
    obtain ⟨k, w⟩ := hd
    cases hk : dictLookup k.2 cost_per_kg with
    | none => simp [extractResults, hk] at h
    | some c =>
      cases hrest : extractResults tl a with
      | error e => simp [extractResults, hk, hrest, Except.map] at h
      | ok rows2 =>
        simp only [extractResults, hk, hrest, Except.map, Except.ok.injEq] at h
        subst h
        simp [ih rows2 hrest]

lemma objective_extract_costs (a : Assignment) (cells : List ((String × String) × ℚ)) :
    ∀ (obj : List ((String × String) × ℚ)) (rows : List AllocationRow),
      buildObjective cells = .ok obj → extractResults cells a = .ok rows →
      (obj.map (fun t => t.2 * a t.1)).sum = (rows.map AllocationRow.cost).sum ∧
        ∀ row ∈ rows, ∀ c : ℚ, dictLookup row.mode cost_per_kg = some c →
          row.cost = row.weight * c := by
  induction cells with
  | nil =>
    intro obj rows hobj hrow
    simp only [buildObjective, Except.ok.injEq] at hobj
    simp only [extractResults, Except.ok.injEq] at hrow
    subst hobj; subst hrow
    exact ⟨rfl, by simp⟩
  | cons hd tl ih =>
    intro obj rows hobj hrow
    obtain ⟨k, w⟩ := hd
    cases hk : dictLookup k.2 cost_per_kg with
    | none => simp [buildObjective, hk] at hobj
    | some c =>
      cases hobj2 : buildObjective tl with
      | error e => simp [buildObjective, hk, hobj2, Except.map] at hobj
      | ok obj2 =>
        cases hrow2 : extractResults tl a with
        | error e => simp [extractResults, hk, hrow2, Except.map] at hrow
        | ok rows2 =>
          simp only [buildObjective, hk, hobj2, Except.map, Except.ok.injEq] at hobj
          simp only [extractResults, hk, hrow2, Except.map, Except.ok.injEq] at hrow
          subst hobj; subst hrow
          obtain ⟨hsum, hrows⟩ := ih obj2 rows2 hobj2 hrow2
          constructor
          · simp only [List.map_cons, List.sum_cons]
            rw [hsum]
            ring
          · intro row hrowmem c2 hc2
            rcases List.mem_cons.mp hrowmem with rfl | hmem
            · have hc3 : dictLookup k.2 cost_per_kg = some c2 := hc2
              rw [hk] at hc3
              injection hc3 with hc3
              subst hc3
              rfl
            · exact hrows row hmem c2 hc2

lemma massBalance_mem {rs : List ShipmentRecord} {p : LPInstance}
    (h : buildProblem rs = .ok p) :
    massBalance (grouped_data rs) (total_actual_weight rs) ∈ p.constraints := by
  rw [(buildProblem_ok h).1]
  unfold problemConstraints
  exact List.mem_cons_self _ _

lemma minMode_mem {rs : List ShipmentRecord} {p : LPInstance} {m : String}
    (h : buildProblem rs = .ok p) (hm : m ∈ tableModes) :
    minModeConstraint (grouped_data rs) (total_actual_weight rs) m ∈ p.constraints := by
  rw [(buildProblem_ok h).1]
  unfold problemConstraints
  obtain ⟨mc, hmc, rfl⟩ := List.mem_map.mp hm
  exact List.mem_cons_of_mem _
    (List.mem_append_left _ (List.mem_append_left _ (List.mem_map_of_mem _ hmc)))

lemma maxMode_mem {rs : List ShipmentRecord} {p : LPInstance} {m : String}
    (h : buildProblem rs = .ok p) (hm : m ∈ tableModes) :
    maxModeConstraint (grouped_data rs) (total_actual_weight rs) m ∈ p.constraints := by
  rw [(buildProblem_ok h).1]
  unfold problemConstraints
  obtain ⟨mc, hmc, rfl⟩ := List.mem_map.mp hm
  exact List.mem_cons_of_mem _
    (List.mem_append_left _ (List.mem_append_right _ (List.mem_map_of_mem _ hmc)))

lemma warehouse_mem {rs : List ShipmentRecord} {p : LPInstance} {w : String}
    (h : buildProblem rs = .ok p) (hw : w ∈ (grouped_data rs).map (fun c => c.1.1)) :
    warehouseConstraint (grouped_data rs) w ∈ p.constraints := by
  rw [(buildProblem_ok h).1]
  unfold problemConstraints
  exact List.mem_cons_of_mem _
    (List.mem_append_right _ (List.mem_map_of_mem _ ((mem_uniqueWarehouses _ w).mpr hw)))

lemma aB_sat : satisfies pB aB := by
  simp +decide [satisfies, pB, scenarioB, buildProblem, grouped_data, addRecord,
    weight_in_kg, total_actual_weight, buildObjective, problemConstraints, massBalance,
    minModeConstraint, maxModeConstraint, uniqueWarehouses, uniqueFirst, warehouseHistWeight,
    warehouseConstraint, varKeys, lhsVal, LinConstraint.holds, aB, cost_per_kg, dictLookup,
    Except.map, Except.toOption, Option.getD]
  norm_num

/-- C5: the groupby-sum of line 20 conserves weight: for every input record
list, the sum of all aggregated cell weights equals the sum of the
individual record weights, which is the grand total of line 21. -/
theorem aggregation_conserves_weight (rs : List ShipmentRecord) :
    ((grouped_data rs).map Prod.snd).sum = total_actual_weight rs := by
  rw [grouped_data, total_actual_weight, foldl_addRecord_sum rs []]
  simp

/-- C1: for every non-empty input whose model builds, the LP instance
contains the mass-balance condition as an equality constraint (sense `==`,
every decision variable with coefficient 1, right-hand side the grand total
T), and consequently every assignment satisfying the instance allocates
exactly T across the decision variables. -/
theorem mass_balance_equality (rs : List ShipmentRecord) (p : LPInstance)
    (hne : rs ≠ []) (hok : buildProblem rs = .ok p) :
    (⟨(varKeys (grouped_data rs)).map (fun k => (k, (1 : ℚ))), .eq,
        total_actual_weight rs⟩ : LinConstraint) ∈ p.constraints ∧
      ∀ a : Assignment, satisfies p a →
        totalAlloc (grouped_data rs) a = total_actual_weight rs := by
  have hmem := massBalance_mem hok
  refine ⟨hmem, fun a hs => ?_⟩
  have hh : lhsVal (massBalance (grouped_data rs) (total_actual_weight rs)) a =
      total_actual_weight rs := hs _ hmem
  rw [lhsVal_massBalance] at hh
  exact hh

/-- Witness for C1: scenario B is non-empty, its model builds, the
historical 40/30/30 split satisfies every constraint, and it allocates
exactly the 100 kg grand total. -/
theorem mass_balance_equality_witness :
    (⟨(varKeys (grouped_data scenarioB)).map (fun k => (k, (1 : ℚ))), .eq,
        total_actual_weight scenarioB⟩ : LinConstraint) ∈ pB.constraints ∧
      satisfies pB aB ∧
      totalAlloc (grouped_data scenarioB) aB = total_actual_weight scenarioB := by
  have h := mass_balance_equality scenarioB pB (by simp [scenarioB]) rfl
  exact ⟨h.1, aB_sat, h.2 aB aB_sat⟩

/-- C2: for every mode that is a key of the cost table — observed in the
data or not — the LP instance contains both the 20% lower-bound constraint
and the 50% upper-bound constraint on that mode's allocation, and every
satisfying assignment keeps the mode's allocation inside that band. -/
theorem mode_band_constraints (rs : List ShipmentRecord) (p : LPInstance) (m : String)
    (hm : m ∈ tableModes) (hok : buildProblem rs = .ok p) :
    minModeConstraint (grouped_data rs) (total_actual_weight rs) m ∈ p.constraints ∧
      maxModeConstraint (grouped_data rs) (total_actual_weight rs) m ∈ p.constraints ∧
      ∀ a : Assignment, satisfies p a →
        0.2 * total_actual_weight rs ≤ modeAlloc (grouped_data rs) m a ∧
          modeAlloc (grouped_data rs) m a ≤ 0.5 * total_actual_weight rs := by
  have h1 := minMode_mem hok hm
  have h2 := maxMode_mem hok hm
  refine ⟨h1, h2, fun a hs => ⟨?_, ?_⟩⟩
  · have hh : 0.2 * total_actual_weight rs ≤
        lhsVal (minModeConstraint (grouped_data rs) (total_actual_weight rs) m) a :=
      hs _ h1
    rw [lhsVal_minMode] at hh
    exact hh
  · have hh : lhsVal (maxModeConstraint (grouped_data rs) (total_actual_weight rs) m) a ≤
        0.5 * total_actual_weight rs := hs _ h2
    rw [lhsVal_maxMode] at hh
    exact hh

/-- Witness for C2: mode Flight of the cost table, on scenario B, with its
historical split: both band constraints are in the instance and the Flight
allocation of 40 kg lies within [20, 50]. -/
theorem mode_band_constraints_witness :
    minModeConstraint (grouped_data scenarioB) (total_actual_weight scenarioB) "Flight"
        ∈ pB.constraints ∧
      maxModeConstraint (grouped_data scenarioB) (total_actual_weight scenarioB) "Flight"
        ∈ pB.constraints ∧
      (0.2 * total_actual_weight scenarioB ≤ modeAlloc (grouped_data scenarioB) "Flight" aB ∧
        modeAlloc (grouped_data scenarioB) "Flight" aB ≤ 0.5 * total_actual_weight scenarioB) := by
  have h := mode_band_constraints scenarioB pB "Flight" (by decide) rfl
  exact ⟨h.1, h.2.1, h.2.2 aB aB_sat⟩

/-- C3: for every warehouse present in the aggregated data, the LP instance
contains the upper-bound constraint capping the warehouse's allocation at
1.1 times its historical aggregated weight, and every satisfying assignment
respects that cap. -/
theorem warehouse_capacity_constraint (rs : List ShipmentRecord) (p : LPInstance)
    (w : String) (hw : w ∈ (grouped_data rs).map (fun c => c.1.1))
    (hok : buildProblem rs = .ok p) :
    (⟨((varKeys (grouped_data rs)).filter (fun k => k.1 == w)).map (fun k => (k, (1 : ℚ))),
        .le, 1.1 * warehouseHistWeight (grouped_data rs) w⟩ : LinConstraint) ∈ p.constraints ∧
      ∀ a : Assignment, satisfies p a →
        whAlloc (grouped_data rs) w a ≤ 1.1 * warehouseHistWeight (grouped_data rs) w := by
  have hmem := warehouse_mem hok hw
  refine ⟨hmem, fun a hs => ?_⟩
  have hh : lhsVal (warehouseConstraint (grouped_data rs) w) a ≤
      1.1 * warehouseHistWeight (grouped_data rs) w := hs _ hmem
  rw [lhsVal_warehouse] at hh
  exact hh

/-- Witness for C3: warehouse "A" of scenario B under the historical split:
the capacity constraint is in the instance and 100 kg ≤ 1.1 × 100 kg. -/
theorem warehouse_capacity_constraint_witness :
    (⟨((varKeys (grouped_data scenarioB)).filter (fun k => k.1 == "A")).map
        (fun k => (k, (1 : ℚ))),
        .le, 1.1 * warehouseHistWeight (grouped_data scenarioB) "A"⟩ : LinConstraint)
        ∈ pB.constraints ∧
      whAlloc (grouped_data scenarioB) "A" aB ≤
        1.1 * warehouseHistWeight (grouped_data scenarioB) "A" := by
  have h := warehouse_capacity_constraint scenarioB pB "A" (by decide) rfl
  exact ⟨h.1, h.2 aB aB_sat⟩

/-- C4: whenever the model build and the result extraction both succeed,
every result row's cost equals its weight times the cost-table entry of its
mode, and the solver-reported objective value (line 147: the objective
evaluated at the variable values) equals the sum of all row costs. -/
theorem cost_consistency (rs : List ShipmentRecord) (p : LPInstance) (a : Assignment)
    (rows : List AllocationRow) (hok : buildProblem rs = .ok p)
    (hex : extractResults (grouped_data rs) a = .ok rows) :
    (∀ row ∈ rows, ∀ c : ℚ, dictLookup row.mode cost_per_kg = some c →
        row.cost = row.weight * c) ∧
      objectiveValue p a = (rows.map AllocationRow.cost).sum := by
  have hobj := (buildProblem_ok hok).2
  have h := objective_extract_costs a (grouped_data rs) p.objective rows hobj hex
  exact ⟨h.2, h.1⟩

/-- C9: the whole pipeline — aggregation, model construction, the solver
call, extraction — is a function of its input: two runs on equal record
lists with the same solver produce identical outputs. -/
theorem pipeline_deterministic (solver : Solver) (rs1 rs2 : List ShipmentRecord)
    (h : rs1 = rs2) : pipeline solver rs1 = pipeline solver rs2 := by
  rw [h]

/-- Witness for C9: two runs on scenario B coincide. -/
theorem pipeline_deterministic_witness :
    pipeline constInfSolver scenarioB = pipeline constInfSolver scenarioB :=
  pipeline_deterministic constInfSolver scenarioB scenarioB rfl

/-- The result rows of scenario B under the historical split. -/
def rowsB : List AllocationRow :=
  ((extractResults (grouped_data scenarioB) aB).toOption).getD []

/-- Witness for C4: scenario B with the historical split; both the build
and the extraction succeed and the two cost identities follow. -/
theorem cost_consistency_witness :
    (∀ row ∈ rowsB, ∀ c : ℚ, dictLookup row.mode cost_per_kg = some c →
        row.cost = row.weight * c) ∧
      objectiveValue pB aB = (rowsB.map AllocationRow.cost).sum :=
  cost_consistency scenarioB pB aB rowsB rfl rfl

/-- Counterexample to C6: on the empty record sequence the script raises
nothing — the aggregation returns no cells and a zero grand total, and the
run completes normally with an empty result table; no EmptyInputError
exists in the script. -/
theorem empty_input_no_failure :
    grouped_data [] = [] ∧ total_actual_weight [] = 0 ∧
      pipeline constInfSolver [] = .ok (.infeasible, []) :=
  ⟨rfl, rfl, rfl⟩

/-- C6 amended: the script performs no emptiness check: for every solver,
the run on the empty input proceeds, building the degenerate model over the
zero grand total (no decision variables) and returning a normal result with
an empty row table instead of failing. -/
theorem empty_input_degenerate_run (solver : Solver) :
    buildProblem [] = .ok ⟨[], problemConstraints []⟩ ∧
      pipeline solver [] = .ok ((solver ⟨[], problemConstraints []⟩).1, []) :=
  ⟨rfl, rfl⟩

/-- Counterexample to C7: a run whose solve outcome is Infeasible — not
Optimal — still produces one allocation row per decision variable; the
extraction loop of lines 69-77 runs unconditionally. -/
theorem nonoptimal_status_rows :
    pipeline constInfSolver scenarioB =
      .ok (.infeasible,
        [⟨"A", "Flight", 0, 0⟩, ⟨"A", "Ship", 0, 0⟩, ⟨"A", "Road", 0, 0⟩]) ∧
      SolveStatus.infeasible ≠ SolveStatus.optimal ∧
      ([⟨"A", "Flight", 0, 0⟩, ⟨"A", "Ship", 0, 0⟩, ⟨"A", "Road", 0, 0⟩] :
        List AllocationRow) ≠ [] := by
  refine ⟨?_, by decide, by simp⟩
  simp +decide [pipeline, scenarioB, buildProblem, grouped_data, addRecord, weight_in_kg,
    total_actual_weight, buildObjective, problemConstraints, massBalance, minModeConstraint,
    maxModeConstraint, uniqueWarehouses, uniqueFirst, warehouseHistWeight, warehouseConstraint,
    varKeys, cost_per_kg, dictLookup, extractResults, constInfSolver, Except.map]

/-- C7 amended: the Result Extractor never branches on the solve status:
every successful run, whatever status the solver reports, yields exactly
one allocation row per aggregated (warehouse, mode) cell — a non-Optimal
outcome neither suppresses the rows nor is propagated as a failure. -/
theorem extraction_unconditional (solver : Solver) (rs : List ShipmentRecord)
    (st : SolveStatus) (rows : List AllocationRow)
    (h : pipeline solver rs = .ok (st, rows)) :
    rows.length = (grouped_data rs).length := by
  simp only [pipeline] at h
  cases hbp : buildProblem rs with
  | error e => simp [hbp] at h
  | ok p =>
    simp only [hbp] at h
    cases hex : extractResults (grouped_data rs) ((solver p).2) with
    | error e => simp [hex] at h
    | ok rows2 =>
      simp only [hex, Except.ok.injEq, Prod.mk.injEq] at h
      rw [← h.2]
      exact extractResults_length (grouped_data rs) _ rows2 hex

/-- Witness for C7 amended: on scenario B with a solver stub reporting
Infeasible, the run yields three rows, one per aggregated cell. -/
theorem extraction_unconditional_witness :
    ([⟨"A", "Flight", 0, 0⟩, ⟨"A", "Ship", 0, 0⟩, ⟨"A", "Road", 0, 0⟩] :
        List AllocationRow).length = (grouped_data scenarioB).length :=
  extraction_unconditional constInfSolver scenarioB .infeasible _ (by
    simp +decide [pipeline, scenarioB, buildProblem, grouped_data, addRecord, weight_in_kg,
      total_actual_weight, buildObjective, problemConstraints, massBalance, minModeConstraint,
      maxModeConstraint, uniqueWarehouses, uniqueFirst, warehouseHistWeight,
      warehouseConstraint, varKeys, cost_per_kg, dictLookup, extractResults, constInfSolver,
      Except.map])

/-- C8 amended: the scenario-A model is genuinely infeasible — its 20%
floor for mode Flight sums an empty set of variables, so no assignment
satisfies the constraint set — yet the script defines no
InfeasibleModelError: the build succeeds and nothing is raised. -/
theorem scenarioA_infeasible :
    buildProblem scenarioA = .ok pA ∧ ∀ a : Assignment, ¬ satisfies pA a := by
  refine ⟨rfl, fun a hs => ?_⟩
  have hmem : minModeConstraint (grouped_data scenarioA) (total_actual_weight scenarioA)
      "Flight" ∈ pA.constraints := minMode_mem rfl (by decide)
  have hh : 0.2 * total_actual_weight scenarioA ≤
      lhsVal (minModeConstraint (grouped_data scenarioA) (total_actual_weight scenarioA)
        "Flight") a := hs _ hmem
  rw [lhsVal_minMode] at hh
  have hz : modeAlloc (grouped_data scenarioA) "Flight" a = 0 := by
    simp +decide [modeAlloc, varKeys, grouped_data, scenarioA, addRecord]
  rw [hz] at hh
  norm_num [total_actual_weight, scenarioA, weight_in_kg] at hh

/-- Counterexample to C8: the scenario-A run reports no error of any kind —
it terminates normally with an (Infeasible status, one result row) pair. -/
theorem scenarioA_run_no_error :
    pipeline constInfSolver scenarioA = .ok (.infeasible, [⟨"A", "Road", 0, 0⟩]) ∧
      ∀ e : PyErr, pipeline constInfSolver scenarioA ≠ .error e := by
  have h1 : pipeline constInfSolver scenarioA =
      .ok (.infeasible, [⟨"A", "Road", 0, 0⟩]) := by
    simp +decide [pipeline, scenarioA, buildProblem, grouped_data, addRecord, weight_in_kg,
      total_actual_weight, buildObjective, problemConstraints, massBalance, minModeConstraint,
      maxModeConstraint, uniqueWarehouses, uniqueFirst, warehouseHistWeight,
      warehouseConstraint, varKeys, cost_per_kg, dictLookup, extractResults, constInfSolver,
      Except.map]
  exact ⟨h1, fun e he => Except.noConfusion (h1.symm.trans he)⟩

/-- C10: both the objective construction and the extraction look the cost
table up unguarded: when every observed mode is one of the table's keys the
whole build and extraction succeed, and when any record carries a mode
outside the table the run fails with a KeyError for a key missing from the
table — there is no ConfigurationMismatchError and the unknown mode is not
skipped. -/
theorem unguarded_cost_lookup :
    (∀ (rs : List ShipmentRecord) (a : Assignment),
        (∀ r ∈ rs, r.mode ∈ tableModes) →
        (∃ p, buildProblem rs = .ok p) ∧
          ∃ rows, extractResults (grouped_data rs) a = .ok rows) ∧
      ∀ (solver : Solver) (rs : List ShipmentRecord),
        (∃ r ∈ rs, r.mode ∉ tableModes) →
        ∃ m, m ∉ tableModes ∧ pipeline solver rs = .error (.keyError m) := by
  constructor
  · intro rs a h
    have hall : ∀ c ∈ grouped_data rs, dictLookup c.1.2 cost_per_kg ≠ none := by
      intro c hc hnone
      have hk : c.1 ∈ varKeys (grouped_data rs) := List.mem_map_of_mem Prod.fst hc
      obtain ⟨r, hr, hkey⟩ := (mem_keys_grouped rs c.1).mp hk
      have hmode : c.1.2 = r.mode := by rw [hkey]
      rw [hmode, dictLookup_eq_none] at hnone
      exact hnone (h r hr)
    constructor
    · obtain ⟨obj, hobj⟩ := buildObjective_ok_of (grouped_data rs) hall
      exact ⟨⟨obj, problemConstraints rs⟩, by simp [buildProblem, hobj, Except.map]⟩
    · exact extractResults_ok_of (grouped_data rs) a hall
  · intro solver rs hbad
    obtain ⟨r, hr, hmode⟩ := hbad
    have hk : (r.warehouse, r.mode) ∈ varKeys (grouped_data rs) :=
      (mem_keys_grouped rs _).mpr ⟨r, hr, rfl⟩
    obtain ⟨c, hc, hfst⟩ := List.mem_map.mp hk
    have hnone : dictLookup c.1.2 cost_per_kg = none := by
      have hcm : c.1.2 = r.mode := by rw [hfst]
      rw [hcm, dictLookup_eq_none]
      exact hmode
    obtain ⟨m, hm, herr⟩ := buildObjective_error_of (grouped_data rs) ⟨c, hc, hnone⟩
    have hbp : buildProblem rs = .error (.keyError m) := by
      simp [buildProblem, herr, Except.map]
    refine ⟨m, (dictLookup_eq_none m cost_per_kg).mp hm, ?_⟩
    unfold pipeline
    rw [hbp]

/-- Witness for C10: scenario B's modes are all cost-table keys and its
build succeeds; a record with the unknown mode "Rail" makes the run fail
with the corresponding KeyError. -/
theorem unguarded_cost_lookup_witness :
    (∃ p, buildProblem scenarioB = .ok p) ∧
      ∃ m, m ∉ tableModes ∧
        pipeline constInfSolver [⟨"B", "Rail", 5000⟩] = .error (.keyError m) :=
  ⟨⟨pB, rfl⟩,
    unguarded_cost_lookup.2 constInfSolver [⟨"B", "Rail", 5000⟩]
      ⟨⟨"B", "Rail", 5000⟩, List.mem_cons_self _ _, by decide⟩⟩

end SupplyChain
